import Mathlib

/-!
Verification of the MiniShop flash-sale coordination engine.

This file gives a shallow embedding, in Lean 4, of the parts of the source
that the specification's testable properties talk about:

* the atomic purchase / rollback Lua scripts executed against the fast store
  (backend/seckill-service/internal/seckill/lua_scripts.go, SeckillCore);
* the token-bucket and multi-level rate limiters
  (backend/seckill-service/internal/flowcontrol/limiter.go);
* the circuit breaker (flowcontrol circuit breaker file);
* idempotent durable order creation (order-service OrderService);
* the durable inventory sync operation and the reconciler's auto-fix policy
  (inventory-service InventoryService and HealthChecker).

Machine integers (Go int64) are modelled as ℤ; Go float64 prices, rates and
wall-clock instants are modelled as ℚ (all the arithmetic the claims exercise
is exact at the values involved); Redis keys/sets are modelled per product as
an explicit state record.  Each operation is a pure state-passing function
translated clause by clause from the source.
-/

namespace MiniShop

/-! ## Fast store state and the seckill Lua scripts

The fast store holds, per product, the stock counter (a Redis string that may
be absent) and the purchase set (a Redis set of user ids).  The full script
additionally reads the activity-metadata key and writes a per-user purchase
detail record.  TTLs are not modelled (no claim mentions expiry).
-/

/-- Result-code constants of lua_scripts.go / SeckillCore. -/
def ResultSuccess : ℤ := 1

/-- Stock key missing. -/
def ResultStockNotFound : ℤ := -1

/-- Stock below requested quantity. -/
def ResultInsufficientStock : ℤ := -2

/-- User already in the purchase set. -/
def ResultUserAlreadyBought : ℤ := -3

/-- Activity metadata key missing. -/
def ResultActivityNotFound : ℤ := -4

/-- Current time before the activity start time. -/
def ResultActivityNotStarted : ℤ := -5

/-- Current time after the activity end time. -/
def ResultActivityEnded : ℤ := -6

/-- Quantity not positive. -/
def ResultInvalidQuantity : ℤ := -7

/-- A Lua script returns either a bare integer code or a pair
of code and remaining stock (the success case returns the pair). -/
inductive ScriptResult where
  | code (c : ℤ)
  | pair (c : ℤ) (remaining : ℤ)
  deriving DecidableEq, Repr

/-- A script execution is counted as a success exactly when the returned code
equals ResultSuccess, mirroring parseSeckillResult in SeckillCore. -/
def isSuccess : ScriptResult → Bool
  | ScriptResult.code c => c = ResultSuccess
  | ScriptResult.pair c _ => c = ResultSuccess

/-- Per-product fast-store state used by SeckillSimpleLuaScript and
StockRollbackLuaScript: the stock counter (GET returns nil when absent)
and the purchase set. -/
structure SeckillStore where
  stock : Option ℤ
  users : Finset ℤ
  deriving DecidableEq

/-- SeckillSimpleLuaScript, the script SeckillCore.InitScripts loads under the
name "seckill": validate quantity, dedupe the user against the purchase set,
check the stock key exists and covers the quantity, then decrement the stock
and add the user to the set in the same atomic execution. -/
def seckillSimple (st : SeckillStore) (userId quantity : ℤ) :
    SeckillStore × ScriptResult :=
  if quantity ≤ 0 then
    (st, ScriptResult.code ResultInvalidQuantity)
  else if userId ∈ st.users then
    (st, ScriptResult.code ResultUserAlreadyBought)
  else
    match st.stock with
    | none => (st, ScriptResult.code ResultStockNotFound)
    | some s =>
      if s < quantity then
        (st, ScriptResult.code ResultInsufficientStock)
      else
        ({ stock := some (s - quantity), users := insert userId st.users },
          ScriptResult.pair ResultSuccess (s - quantity))

/-- StockRollbackLuaScript: if the user is not in the purchase set return 0 and
change nothing; otherwise INCRBY the stock key by the quantity (INCRBY treats
an absent key as 0), remove the user from the set, and return the new stock. -/
def stockRollback (st : SeckillStore) (userId quantity : ℤ) :
    SeckillStore × ℤ :=
  if userId ∈ st.users then
    let s := st.stock.getD 0 + quantity
    ({ stock := some s, users := st.users.erase userId }, s)
  else
    (st, 0)

/-- Activity metadata stored at the activity key, as read by the full
SeckillLuaScript (product id, start and end timestamps). -/
structure ActivityInfo where
  productId : ℤ
  startTime : ℤ
  endTime : ℤ
  deriving DecidableEq, Repr

/-- Per-user purchase detail record written by the full script
(status is always written as "pending"; the one-hour TTL is not modelled). -/
structure PurchaseInfo where
  userId : ℤ
  productId : ℤ
  quantity : ℤ
  purchaseTime : ℤ
  status : String
  deriving DecidableEq, Repr

/-- Fast-store state seen by the full SeckillLuaScript: stock counter,
purchase set, activity metadata key, and the purchase-detail records. -/
structure FastStore where
  stock : Option ℤ
  users : Finset ℤ
  activity : Option ActivityInfo
  purchases : List PurchaseInfo
  deriving DecidableEq

/-- SeckillLuaScript, the full script with the activity-window check: validate
quantity, load the activity metadata, reject when current_time < start_time or
current_time > end_time, then dedupe, check stock, decrement, add the user and
write the purchase-detail record. -/
def seckillFull (st : FastStore) (userId quantity currentTime : ℤ) :
    FastStore × ScriptResult :=
  if quantity ≤ 0 then
    (st, ScriptResult.code ResultInvalidQuantity)
  else
    match st.activity with
    | none => (st, ScriptResult.code ResultActivityNotFound)
    | some act =>
      if currentTime < act.startTime then
        (st, ScriptResult.code ResultActivityNotStarted)
      else if act.endTime < currentTime then
        (st, ScriptResult.code ResultActivityEnded)
      else if userId ∈ st.users then
        (st, ScriptResult.code ResultUserAlreadyBought)
      else
        match st.stock with
        | none => (st, ScriptResult.code ResultStockNotFound)
        | some s =>
          if s < quantity then
            (st, ScriptResult.code ResultInsufficientStock)
          else
            ({ stock := some (s - quantity),
               users := insert userId st.users,
               activity := st.activity,
               purchases := st.purchases ++
                 [{ userId := userId, productId := act.productId,
                    quantity := quantity, purchaseTime := currentTime,
                    status := "pending" }] },
              ScriptResult.pair ResultSuccess (s - quantity))

/-- Run a finite sequence of simple-script executions; each element of the
request list is a (userId, quantity) pair.  Returns the final state and the
list of per-execution results. -/
def runSimple (st : SeckillStore) : List (ℤ × ℤ) → SeckillStore × List ScriptResult
  | [] => (st, [])
  | (u, q) :: rest =>
    let step := seckillSimple st u q
    let next := runSimple step.1 rest
    (next.1, step.2 :: next.2)

/-- Number of executions in a result list that returned the success code. -/
def countSuccess (rs : List ScriptResult) : ℕ :=
  (rs.filter isSuccess).length

/-- Number of successful executions attributed to a given user id, pairing the
request list with the result list positionally. -/
def succFor (u : ℤ) : List (ℤ × ℤ) → List ScriptResult → ℕ
  | (v, _) :: reqs, r :: rs =>
    (if v = u ∧ isSuccess r then 1 else 0) + succFor u reqs rs
  | _, _ => 0

/-- Fast-store state of a freshly preloaded product: stock counter set to the
initial stock, empty purchase set. -/
def initStore (S : ℤ) : SeckillStore :=
  { stock := some S, users := ∅ }

/-! ### Single-step facts about the simple script -/

theorem isSuccess_pair_success (r : ℤ) :
    isSuccess (ScriptResult.pair ResultSuccess r) = true := by
  simp [isSuccess]

theorem seckillSimple_already (st : SeckillStore) (u q : ℤ)
    (hq : 0 < q) (hm : u ∈ st.users) :
    seckillSimple st u q = (st, ScriptResult.code ResultUserAlreadyBought) := by
  have h0 : ¬ q ≤ 0 := not_le.mpr hq
  simp [seckillSimple, h0, hm]

theorem seckillSimple_insufficient (st : SeckillStore) (u q s : ℤ)
    (hq : 0 < q) (hm : u ∉ st.users) (hst : st.stock = some s) (hlt : s < q) :
    seckillSimple st u q = (st, ScriptResult.code ResultInsufficientStock) := by
  have h0 : ¬ q ≤ 0 := not_le.mpr hq
  simp [seckillSimple, h0, hm, hst, hlt]

theorem seckillSimple_success (st : SeckillStore) (u q s : ℤ)
    (hq : 0 < q) (hm : u ∉ st.users) (hst : st.stock = some s) (hge : q ≤ s) :
    seckillSimple st u q =
      ({ stock := some (s - q), users := insert u st.users },
        ScriptResult.pair ResultSuccess (s - q)) := by
  have h0 : ¬ q ≤ 0 := not_le.mpr hq
  have h1 : ¬ s < q := not_lt.mpr hge
  simp [seckillSimple, h0, hm, hst, h1]

theorem countSuccess_nil : countSuccess [] = 0 := rfl

theorem countSuccess_cons (r : ScriptResult) (rs : List ScriptResult) :
    countSuccess (r :: rs) = (if isSuccess r then 1 else 0) + countSuccess rs := by
  by_cases h : isSuccess r <;> simp [countSuccess, List.filter_cons, h, Nat.add_comm]

/-- Running a concatenated request list runs the two halves in sequence: the
state after the first half is exactly an intermediate state of the full run. -/
theorem runSimple_append (st : SeckillStore) (l1 l2 : List (ℤ × ℤ)) :
    runSimple st (l1 ++ l2) =
      ((runSimple (runSimple st l1).1 l2).1,
        (runSimple st l1).2 ++ (runSimple (runSimple st l1).1 l2).2) := by
  induction l1 generalizing st with
  | nil => simp [runSimple]
  | cons hd tl ih =>
    obtain ⟨u, q⟩ := hd
    simp [runSimple, ih]

/-- Core stock invariant for quantity-1 runs of the simple script: the counter
stays present, the number of successes so far never exceeds the starting
value, and the counter always equals the starting value minus the successes. -/
theorem runSimple_ones_stock (users : List ℤ) :
    ∀ (st : SeckillStore) (s : ℤ), st.stock = some s → 0 ≤ s →
      ((countSuccess (runSimple st (users.map fun u => (u, 1))).2 : ℤ) ≤ s ∧
        (runSimple st (users.map fun u => (u, 1))).1.stock
          = some (s - (countSuccess (runSimple st (users.map fun u => (u, 1))).2 : ℤ))) := by
  induction users with
  | nil =>
    intro st s hst hs
    refine ⟨by simpa [runSimple, countSuccess] using hs, ?_⟩
    simp [runSimple, countSuccess, hst]
  | cons u rest ih =>
    intro st s hst hs
    by_cases hm : u ∈ st.users
    · have hstep := seckillSimple_already st u 1 one_pos hm
      obtain ⟨h1, h2⟩ := ih st s hst hs
      simp only [List.map_cons, runSimple, hstep, countSuccess_cons]
      constructor
      · simpa [isSuccess, ResultUserAlreadyBought, ResultSuccess] using h1
      · simpa [isSuccess, ResultUserAlreadyBought, ResultSuccess] using h2
    · by_cases hlt : s < 1
      · have hstep := seckillSimple_insufficient st u 1 s one_pos hm hst hlt
        obtain ⟨h1, h2⟩ := ih st s hst hs
        simp only [List.map_cons, runSimple, hstep, countSuccess_cons]
        constructor
        · simpa [isSuccess, ResultInsufficientStock, ResultSuccess] using h1
        · simpa [isSuccess, ResultInsufficientStock, ResultSuccess] using h2
      · have hge : (1 : ℤ) ≤ s := not_lt.mp hlt
        have hstep := seckillSimple_success st u 1 s one_pos hm hst hge
        obtain ⟨h1, h2⟩ :=
          ih { stock := some (s - 1), users := insert u st.users } (s - 1) rfl
            (by omega)
        simp only [List.map_cons, runSimple, hstep, countSuccess_cons]
        constructor
        · have := h1
          simp only [isSuccess_pair_success, if_true]
          push_cast
          omega
        · have := h2
          simp only [isSuccess_pair_success, if_true]
          rw [h2]
          congr 1
          push_cast
          ring

/-- C1: for every product whose fast-path stock counter is initialized to S
and every finite sequence of executions of the atomic purchase script with
quantity 1 (arbitrary user ids), the number of executions that return the
success code is at most S, the counter is never negative at any intermediate
point (by runSimple_append, the state after any decomposition point of the
request list is exactly an intermediate state of the full run), and the final
counter value equals S minus the number of successful executions. -/
theorem seckill_no_oversell (S : ℤ) (hS : 0 ≤ S) (users : List ℤ) :
    ((countSuccess (runSimple (initStore S) (users.map fun u => (u, 1))).2 : ℤ) ≤ S) ∧
    ((runSimple (initStore S) (users.map fun u => (u, 1))).1.stock
      = some (S - (countSuccess (runSimple (initStore S) (users.map fun u => (u, 1))).2 : ℤ))) ∧
    (∀ pre suf : List ℤ, users = pre ++ suf →
      ∃ s : ℤ, (runSimple (initStore S) (pre.map fun u => (u, 1))).1.stock = some s ∧
        0 ≤ s) := by
  obtain ⟨h1, h2⟩ := runSimple_ones_stock users (initStore S) S rfl hS
  refine ⟨h1, h2, ?_⟩
  intro pre suf _
  obtain ⟨g1, g2⟩ := runSimple_ones_stock pre (initStore S) S rfl hS
  exact ⟨S - (countSuccess (runSimple (initStore S) (pre.map fun u => (u, 1))).2 : ℤ),
    g2, by omega⟩

/-- Witness for C1: stock 2, four attempts (one user retries). -/
theorem seckill_no_oversell_witness :
    (0 : ℤ) ≤ 2 ∧
    (((countSuccess (runSimple (initStore 2) ([10, 11, 10, 12].map fun u => (u, 1))).2 : ℤ) ≤ 2) ∧
    ((runSimple (initStore 2) ([10, 11, 10, 12].map fun u => (u, 1))).1.stock
      = some (2 - (countSuccess (runSimple (initStore 2) ([10, 11, 10, 12].map fun u => (u, 1))).2 : ℤ))) ∧
    (∀ pre suf : List ℤ, [10, 11, 10, 12] = pre ++ suf →
      ∃ s : ℤ, (runSimple (initStore 2) (pre.map fun u => (u, 1))).1.stock = some s ∧
        0 ≤ s)) :=
  ⟨by norm_num, seckill_no_oversell 2 (by norm_num) [10, 11, 10, 12]⟩

@[simp] theorem isSuccess_code_eq (c : ℤ) :
    isSuccess (ScriptResult.code c) = decide (c = ResultSuccess) := rfl

@[simp] theorem isSuccess_pair_eq (c r : ℤ) :
    isSuccess (ScriptResult.pair c r) = decide (c = ResultSuccess) := rfl

/-- The simple script never removes a user from the purchase set. -/
theorem seckillSimple_users_mono (st : SeckillStore) (u q v : ℤ)
    (hv : v ∈ st.users) : v ∈ (seckillSimple st u q).1.users := by
  by_cases h0 : q ≤ 0
  · simpa [seckillSimple, h0] using hv
  · by_cases hm : u ∈ st.users
    · simpa [seckillSimple, h0, hm] using hv
    · cases hst : st.stock with
      | none => simpa [seckillSimple, h0, hm, hst] using hv
      | some s =>
        by_cases hlt : s < q
        · simpa [seckillSimple, h0, hm, hst, hlt] using hv
        · simp [seckillSimple, h0, hm, hst, hlt, Finset.mem_insert, hv]

/-- An execution on behalf of a user already in the purchase set never
returns the success code. -/
theorem seckillSimple_mem_not_success (st : SeckillStore) (u q : ℤ)
    (hm : u ∈ st.users) : isSuccess (seckillSimple st u q).2 = false := by
  by_cases h0 : q ≤ 0
  · simp [seckillSimple, h0, ResultInvalidQuantity, ResultSuccess]
  · simp [seckillSimple, h0, hm, ResultUserAlreadyBought, ResultSuccess]

/-- A successful execution puts the user into the purchase set. -/
theorem seckillSimple_success_mem (st : SeckillStore) (u q : ℤ)
    (h : isSuccess (seckillSimple st u q).2 = true) :
    u ∈ (seckillSimple st u q).1.users := by
  by_cases h0 : q ≤ 0
  · simp [seckillSimple, h0, ResultInvalidQuantity, ResultSuccess] at h
  · by_cases hm : u ∈ st.users
    · exact seckillSimple_users_mono st u q u hm
    · cases hst : st.stock with
      | none => simp [seckillSimple, h0, hm, hst, ResultStockNotFound, ResultSuccess] at h
      | some s =>
        by_cases hlt : s < q
        · simp [seckillSimple, h0, hm, hst, hlt, ResultInsufficientStock, ResultSuccess] at h
        · simp [seckillSimple, h0, hm, hst, hlt, Finset.mem_insert]

/-- A user id enters the purchase set only through a successful execution for
that same user, and that execution decrements the stock by its quantity. -/
theorem seckillSimple_new_mem (st : SeckillStore) (v q w : ℤ)
    (hw : w ∉ st.users) (hw2 : w ∈ (seckillSimple st v q).1.users) :
    w = v ∧ isSuccess (seckillSimple st v q).2 = true ∧
      ∃ s, st.stock = some s ∧ (seckillSimple st v q).1.stock = some (s - q) := by
  by_cases h0 : q ≤ 0
  · simp [seckillSimple, h0] at hw2; exact absurd hw2 hw
  · by_cases hm : v ∈ st.users
    · simp [seckillSimple, h0, hm] at hw2; exact absurd hw2 hw
    · cases hst : st.stock with
      | none => simp [seckillSimple, h0, hm, hst] at hw2; exact absurd hw2 hw
      | some s =>
        by_cases hlt : s < q
        · simp [seckillSimple, h0, hm, hst, hlt] at hw2; exact absurd hw2 hw
        · simp only [seckillSimple, if_neg h0, if_neg hm, hst, if_neg hlt] at hw2 ⊢
          rcases Finset.mem_insert.mp hw2 with h | h
          · exact ⟨h, by simp [ResultSuccess], s, rfl, rfl⟩
          · exact absurd h hw

/-- Across a run, a user already in the purchase set accumulates no further
successes. -/
theorem succFor_run_of_mem (u : ℤ) (reqs : List (ℤ × ℤ)) :
    ∀ st : SeckillStore, u ∈ st.users →
      succFor u reqs (runSimple st reqs).2 = 0 := by
  induction reqs with
  | nil => intro st _; rfl
  | cons hd tl ih =>
    obtain ⟨v, q⟩ := hd
    intro st hm
    have htail := ih (seckillSimple st v q).1 (seckillSimple_users_mono st v q u hm)
    simp only [runSimple, succFor, htail, Nat.add_zero]
    by_cases hv : v = u
    · subst hv
      simp [seckillSimple_mem_not_success st v q hm]
    · simp [hv]

/-- Across any run of the simple script, a fixed user id is credited with at
most one success. -/
theorem succFor_run_le_one (u : ℤ) (reqs : List (ℤ × ℤ)) :
    ∀ st : SeckillStore, succFor u reqs (runSimple st reqs).2 ≤ 1 := by
  induction reqs with
  | nil => intro st; exact Nat.zero_le 1
  | cons hd tl ih =>
    obtain ⟨v, q⟩ := hd
    intro st
    simp only [runSimple, succFor]
    by_cases hh : v = u ∧ isSuccess (seckillSimple st v q).2 = true
    · obtain ⟨rfl, hsucc⟩ := hh
      have hmem := seckillSimple_success_mem st v q hsucc
      have htail := succFor_run_of_mem v tl (seckillSimple st v q).1 hmem
      simp [hsucc, htail]
    · have htail := ih (seckillSimple st v q).1
      simp only [hh, if_false]
      simpa using htail

/-- C2: at most one purchase per user: across any sequence of executions of
the purchase script at most one execution for a given user id returns the
success code; a further attempt by a user who already succeeded returns the
already-bought code and leaves the state (stock counter and Purchase Set)
unchanged; and a user id is added to the Purchase Set only by the same atomic
execution that decrements the stock counter, for that same user. -/
theorem seckill_at_most_one_purchase (u : ℤ) :
    (∀ (st : SeckillStore) (reqs : List (ℤ × ℤ)),
        succFor u reqs (runSimple st reqs).2 ≤ 1) ∧
    (∀ (st st1 : SeckillStore) (q : ℤ) (res : ScriptResult),
        seckillSimple st u q = (st1, res) → isSuccess res = true →
        ∀ q' : ℤ, 0 < q' →
          seckillSimple st1 u q' = (st1, ScriptResult.code ResultUserAlreadyBought)) ∧
    (∀ (st : SeckillStore) (v q w : ℤ), w ∉ st.users →
        w ∈ (seckillSimple st v q).1.users →
        w = v ∧ isSuccess (seckillSimple st v q).2 = true ∧
          ∃ s, st.stock = some s ∧ (seckillSimple st v q).1.stock = some (s - q)) := by
  refine ⟨fun st reqs => succFor_run_le_one u reqs st, ?_,
    fun st v q w => seckillSimple_new_mem st v q w⟩
  intro st st1 q res heq hres q' hq'
  have hmem : u ∈ st1.users := by
    have := seckillSimple_success_mem st u q (by rw [heq]; exact hres)
    rwa [heq] at this
  exact seckillSimple_already st1 u q' hq' hmem

/-- Witness for C2: user 5 has already bought (purchase set holds 5); a retry
with quantity 1 returns the already-bought code and changes nothing. -/
theorem seckill_at_most_one_purchase_witness :
    seckillSimple { stock := some 2, users := {5} } 5 1
      = ({ stock := some 2, users := {5} }, ScriptResult.code ResultUserAlreadyBought) :=
  (seckill_at_most_one_purchase 5).2.1 (initStore 3) { stock := some 2, users := {5} } 1
    (ScriptResult.pair ResultSuccess 2) (by decide) (by decide) 1 one_pos

/-- C3 counterexample: the claim says a request arriving exactly at
now = end is rejected; but the full script only rejects when
current_time > end_time, so at now = end (stock present, user new, activity
window [0, 100], now = 100) the purchase succeeds. -/
theorem seckill_window_end_admitted :
    isSuccess (seckillFull
      { stock := some 5, users := ∅,
        activity := some { productId := 7, startTime := 0, endTime := 100 },
        purchases := [] } 1 1 100).2 = true := by
  decide

/-- C3 (amended): the full purchase script rejects a request with
now < start with activity-not-started and a request with now > end with
activity-ended; a request arriving exactly at now = end is admitted to the
remaining checks (the window realised by the script is [start, end],
inclusive on the right). -/
theorem seckill_activity_window (st : FastStore) (act : ActivityInfo)
    (u q now : ℤ) (hact : st.activity = some act) (hq : 0 < q) :
    (now < act.startTime →
      seckillFull st u q now = (st, ScriptResult.code ResultActivityNotStarted)) ∧
    (act.startTime ≤ now → act.endTime < now →
      seckillFull st u q now = (st, ScriptResult.code ResultActivityEnded)) := by
  have h0 : ¬ q ≤ 0 := not_le.mpr hq
  constructor
  · intro h
    simp [seckillFull, h0, hact, h]
  · intro hs he
    have h1 : ¬ now < act.startTime := not_lt.mpr hs
    simp [seckillFull, h0, hact, h1, he]

/-- Witness for C3 (amended): activity window [0, 100]; a request at
now = -1 is not-started, a request at now = 101 is ended. -/
theorem seckill_activity_window_witness :
    (seckillFull
        { stock := some 5, users := ∅,
          activity := some { productId := 7, startTime := 0, endTime := 100 },
          purchases := [] } 1 1 (-1)
      = ({ stock := some 5, users := ∅,
           activity := some { productId := 7, startTime := 0, endTime := 100 },
           purchases := [] }, ScriptResult.code ResultActivityNotStarted)) ∧
    (seckillFull
        { stock := some 5, users := ∅,
          activity := some { productId := 7, startTime := 0, endTime := 100 },
          purchases := [] } 1 1 101
      = ({ stock := some 5, users := ∅,
           activity := some { productId := 7, startTime := 0, endTime := 100 },
           purchases := [] }, ScriptResult.code ResultActivityEnded)) :=
  ⟨(seckill_activity_window _ { productId := 7, startTime := 0, endTime := 100 }
      1 1 (-1) rfl one_pos).1 (by norm_num),
   (seckill_activity_window _ { productId := 7, startTime := 0, endTime := 100 }
      1 1 101 rfl one_pos).2 (by norm_num) (by norm_num)⟩

/-- C4: rollback symmetry: running the rollback script with quantity q for a
user immediately after that user's successful deduction of q restores the
stock counter to its pre-deduction value and removes the user from the
Purchase Set — a round trip on the (counter, Purchase Set) state; and running
rollback for a user not present in the Purchase Set returns 0 and changes
neither the counter nor the set. -/
theorem stock_rollback_symmetry :
    (∀ (st st1 : SeckillStore) (u q : ℤ) (res : ScriptResult),
        seckillSimple st u q = (st1, res) → isSuccess res = true →
        ∃ s, st.stock = some s ∧ stockRollback st1 u q = (st, s)) ∧
    (∀ (st : SeckillStore) (u q : ℤ), u ∉ st.users →
        stockRollback st u q = (st, 0)) := by
  constructor
  · rintro ⟨os, us⟩ st1 u q res heq hres
    by_cases h0 : q ≤ 0
    · simp only [seckillSimple, if_pos h0] at heq
      cases heq
      simp [ResultInvalidQuantity, ResultSuccess] at hres
    · by_cases hm : u ∈ us
      · simp only [seckillSimple, if_neg h0, if_pos hm] at heq
        cases heq
        simp [ResultUserAlreadyBought, ResultSuccess] at hres
      · cases os with
        | none =>
          simp only [seckillSimple, if_neg h0, if_neg hm] at heq
          cases heq
          simp [ResultStockNotFound, ResultSuccess] at hres
        | some s =>
          by_cases hlt : s < q
          · simp only [seckillSimple, if_neg h0, if_neg hm, if_pos hlt] at heq
            cases heq
            simp [ResultInsufficientStock, ResultSuccess] at hres
          · simp only [seckillSimple, if_neg h0, if_neg hm, if_neg hlt] at heq
            cases heq
            refine ⟨s, rfl, ?_⟩
            have hmem : u ∈ insert u us := Finset.mem_insert_self u us
            simp only [stockRollback, if_pos hmem, Option.getD_some,
              Finset.erase_insert hm]
            have harith : s - q + q = s := by ring
            rw [harith]
  · intro st u q hm
    simp [stockRollback, hm]

/-- Witness for C4: user 5 deducts 2 from stock 3; rolling back 2 restores
the initial state and returns the restored stock 3. -/
theorem stock_rollback_symmetry_witness :
    ∃ s, (initStore 3).stock = some s ∧
      stockRollback { stock := some 1, users := {5} } 5 2 = (initStore 3, s) :=
  stock_rollback_symmetry.1 (initStore 3) { stock := some 1, users := {5} } 5 2
    (ScriptResult.pair ResultSuccess 1) (by decide) (by decide)

/-! ## Flow control: token-bucket limiter and multi-level limiter

From backend/seckill-service/internal/flowcontrol/limiter.go.  Go float64
rate and time.Time instants are modelled as ℚ (seconds); Go int token counts
as ℤ.  Go's int(elapsed*rate) conversion truncates toward zero, which on the
nonnegative products arising here coincides with the floor.
-/

/-- TokenBucketLimiter state: refill rate (tokens/second), bucket capacity,
current tokens, time of the last refill. -/
structure TokenBucketLimiter where
  rate : ℚ
  capacity : ℤ
  tokens : ℤ
  lastRefill : ℚ
  deriving DecidableEq, Repr

/-- NewTokenBucketLimiter: the bucket starts full and lastRefill is the
creation instant. -/
def newTokenBucketLimiter (rate : ℚ) (capacity : ℤ) (now : ℚ) :
    TokenBucketLimiter :=
  { rate := rate, capacity := capacity, tokens := capacity, lastRefill := now }

/-- refill: lazily add int(elapsed*rate) tokens, cap at capacity; lastRefill
advances only when at least one token was added. -/
def tbRefill (l : TokenBucketLimiter) (now : ℚ) : TokenBucketLimiter :=
  if 0 < now - l.lastRefill then
    if 0 < ⌊(now - l.lastRefill) * l.rate⌋ then
      { l with tokens := min (l.tokens + ⌊(now - l.lastRefill) * l.rate⌋) l.capacity,
               lastRefill := now }
    else l
  else l

/-- AllowN: refill, then admit and consume iff at least n tokens remain. -/
def tbAllowN (l : TokenBucketLimiter) (now : ℚ) (n : ℤ) :
    TokenBucketLimiter × Bool :=
  let l1 := tbRefill l now
  if n ≤ l1.tokens then ({ l1 with tokens := l1.tokens - n }, true)
  else (l1, false)

/-- A run of k consecutive Allow() calls (AllowN 1) at a fixed instant. -/
def tbAllowRun (l : TokenBucketLimiter) (now : ℚ) : ℕ → TokenBucketLimiter × List Bool
  | 0 => (l, [])
  | k + 1 =>
    let step := tbAllowN l now 1
    let rest := tbAllowRun step.1 now k
    (rest.1, step.2 :: rest.2)

/-- With zero elapsed time the lazy refill is a no-op. -/
theorem tbRefill_id (l : TokenBucketLimiter) (now : ℚ) (h : l.lastRefill = now) :
    tbRefill l now = l := by
  simp [tbRefill, h]

/-- Closed form of the refill when time has advanced enough to add a token. -/
theorem tbRefill_eq (l : TokenBucketLimiter) (now : ℚ)
    (h1 : 0 < now - l.lastRefill) (h2 : 0 < ⌊(now - l.lastRefill) * l.rate⌋) :
    tbRefill l now =
      { l with tokens := min (l.tokens + ⌊(now - l.lastRefill) * l.rate⌋) l.capacity,
               lastRefill := now } := by
  simp [tbRefill, h1, h2]

/-- With tokens = k and zero elapsed time, k + 1 Allow() calls produce k
admissions followed by one rejection. -/
theorem tbAllowRun_boundary (now : ℚ) :
    ∀ (k : ℕ) (l : TokenBucketLimiter), l.lastRefill = now → l.tokens = (k : ℤ) →
      (tbAllowRun l now (k + 1)).2 = List.replicate k true ++ [false] := by
  intro k
  induction k with
  | zero =>
    intro l hl ht
    have hid := tbRefill_id l now hl
    have hno : ¬ (1 : ℤ) ≤ l.tokens := by omega
    simp [tbAllowRun, tbAllowN, hid, hno]
  | succ k ih =>
    intro l hl ht
    have hid := tbRefill_id l now hl
    have hyes : (1 : ℤ) ≤ l.tokens := by omega
    have hstep : tbAllowN l now 1 = ({ l with tokens := l.tokens - 1 }, true) := by
      simp [tbAllowN, hid, hyes]
    have hrest := ih { l with tokens := l.tokens - 1 } hl (by push_cast; omega)
    have hunfold : (tbAllowRun l now (k + 1 + 1)).2
        = (tbAllowN l now 1).2 :: (tbAllowRun (tbAllowN l now 1).1 now (k + 1)).2 := by
      simp only [tbAllowRun]
    rw [hunfold, hstep]
    simp [hrest, List.replicate_succ]

/-- After waiting at least 1/rate seconds since the last refill, the next
Allow() admits (the refill adds at least one token). -/
theorem tbAllowN_after_wait (l : TokenBucketLimiter) (now : ℚ)
    (hr : 0 < l.rate) (hc : 1 ≤ l.capacity) (ht : 0 ≤ l.tokens)
    (hw : l.lastRefill + 1 / l.rate ≤ now) :
    (tbAllowN l now 1).2 = true := by
  have hpos : (0 : ℚ) < 1 / l.rate := by positivity
  have helapsed : 0 < now - l.lastRefill := by linarith
  have hmul : (1 : ℚ) ≤ (now - l.lastRefill) * l.rate := by
    have h1 : 1 / l.rate ≤ now - l.lastRefill := by linarith
    calc (1 : ℚ) = (1 / l.rate) * l.rate := by field_simp
    _ ≤ (now - l.lastRefill) * l.rate := mul_le_mul_of_nonneg_right h1 (le_of_lt hr)
  have hadd : (1 : ℤ) ≤ ⌊(now - l.lastRefill) * l.rate⌋ :=
    Int.le_floor.mpr (by push_cast; exact hmul)
  have hfill := tbRefill_eq l now helapsed (by omega)
  have htok : (1 : ℤ) ≤ min (l.tokens + ⌊(now - l.lastRefill) * l.rate⌋) l.capacity :=
    le_min (by omega) hc
  simp [tbAllowN, hfill, htok]

/-- C5: token-bucket boundary: a bucket of capacity C with zero time elapsed
since creation admits the first C Allow() calls and rejects the (C+1)th;
the lazy refill adds floor(elapsed*rate) tokens capped at the capacity; and
once at least 1/rate seconds have passed since the last refill, the next
Allow() admits. -/
theorem token_bucket_boundary :
    (∀ (rate : ℚ) (C : ℕ) (t0 : ℚ),
      (tbAllowRun (newTokenBucketLimiter rate (C : ℤ) t0) t0 (C + 1)).2
        = List.replicate C true ++ [false]) ∧
    (∀ (l : TokenBucketLimiter) (now : ℚ),
      0 < now - l.lastRefill → 0 < ⌊(now - l.lastRefill) * l.rate⌋ →
      tbRefill l now =
        { l with tokens := min (l.tokens + ⌊(now - l.lastRefill) * l.rate⌋) l.capacity,
                 lastRefill := now }) ∧
    (∀ (l : TokenBucketLimiter) (now : ℚ), 0 < l.rate → 1 ≤ l.capacity →
      0 ≤ l.tokens → l.lastRefill + 1 / l.rate ≤ now →
      (tbAllowN l now 1).2 = true) :=
  ⟨fun rate C t0 => tbAllowRun_boundary t0 C (newTokenBucketLimiter rate (C : ℤ) t0) rfl rfl,
   tbRefill_eq, tbAllowN_after_wait⟩

/-- Witness for C5: capacity 3, rate 2: four calls give three admissions then
a rejection; an empty bucket admits again half a second later. -/
theorem token_bucket_boundary_witness :
    ((tbAllowRun (newTokenBucketLimiter 2 ((3 : ℕ) : ℤ) 0) 0 (3 + 1)).2
        = List.replicate 3 true ++ [false]) ∧
    ((tbAllowN { rate := 2, capacity := 3, tokens := 0, lastRefill := 0 } (1/2) 1).2
        = true) :=
  ⟨token_bucket_boundary.1 2 3 0,
   token_bucket_boundary.2.2 { rate := 2, capacity := 3, tokens := 0, lastRefill := 0 }
     (1/2) (by norm_num) (by norm_num) (by norm_num) (by norm_num)⟩

/-- MultiLevelLimiter.AllowN: call each sub-limiter's AllowN in order and
return false at the first rejection; sub-limiters after the rejecting one are
not consulted, and tokens consumed by the earlier admitting sub-limiters are
not returned.  The sub-limiter interface call is the function argument f
(state in, updated state and verdict out). -/
def multiLevelAllowN {α : Type} (f : α → α × Bool) : List α → List α × Bool
  | [] => ([], true)
  | l :: rest =>
    let step := f l
    if step.2 then
      let next := multiLevelAllowN f rest
      (step.1 :: next.1, next.2)
    else
      (step.1 :: rest, false)

/-- k consecutive MultiLevelLimiter.AllowN calls. -/
def multiRun {α : Type} (f : α → α × Bool) : ℕ → List α → List α × List Bool
  | 0, ls => (ls, [])
  | k + 1, ls =>
    let step := multiLevelAllowN f ls
    let rest := multiRun f k step.1
    (rest.1, step.2 :: rest.2)

/-- One rejected multi-level call over two token buckets at a fixed instant:
the first bucket admits and pays n tokens, the second rejects, the call
returns false, and the first bucket's tokens stay consumed. -/
theorem multiTB_two_reject (a b : TokenBucketLimiter) (now : ℚ) (n : ℤ)
    (ha : a.lastRefill = now) (hb : b.lastRefill = now)
    (han : n ≤ a.tokens) (hbn : b.tokens < n) :
    multiLevelAllowN (fun l => tbAllowN l now n) [a, b]
      = ([{ a with tokens := a.tokens - n }, b], false) := by
  have hra := tbRefill_id a now ha
  have hrb := tbRefill_id b now hb
  have hstepa : tbAllowN a now n = ({ a with tokens := a.tokens - n }, true) := by
    simp [tbAllowN, hra, han]
  have hstepb : tbAllowN b now n = (b, false) := by
    simp [tbAllowN, hrb, not_le.mpr hbn]
  simp [multiLevelAllowN, hstepa, hstepb]

/-- Any rejected multi-level call splits the limiter list at the first
rejecting sub-limiter: every earlier sub-limiter admitted and keeps its
post-admission (consumed) state, the rejecting one keeps its post-call
state, and the later ones were never consulted. -/
theorem multiLevelAllowN_false_split {α : Type} (f : α → α × Bool) :
    ∀ (ls ls' : List α), multiLevelAllowN f ls = (ls', false) →
      ∃ pre x suf, ls = pre ++ x :: suf ∧ (∀ y ∈ pre, (f y).2 = true) ∧
        (f x).2 = false ∧
        ls' = pre.map (fun l => (f l).1) ++ (f x).1 :: suf := by
  intro ls
  induction ls with
  | nil => intro ls' h; simp [multiLevelAllowN] at h
  | cons l rest ih =>
    intro ls' h
    by_cases hl : (f l).2 = true
    · simp only [multiLevelAllowN, hl, if_true] at h
      obtain ⟨h1, h2⟩ := Prod.mk.injEq _ _ _ _ |>.mp h
      have hrec : multiLevelAllowN f rest = ((multiLevelAllowN f rest).1, false) := by
        rw [← h2]
      obtain ⟨pre, x, suf, hsplit, hpre, hx, hls⟩ := ih _ hrec
      refine ⟨l :: pre, x, suf, by rw [List.cons_append, ← hsplit], ?_, hx, ?_⟩
      · intro y hy
        rcases List.mem_cons.mp hy with hy | hy
        · rw [hy]; exact hl
        · exact hpre y hy
      · rw [← h1, List.map_cons, List.cons_append, hls]
    · have hlf : (f l).2 = false := Bool.eq_false_iff.mpr hl
      simp only [multiLevelAllowN, hlf, Bool.false_eq_true, if_false] at h
      obtain ⟨h1, _⟩ := Prod.mk.injEq _ _ _ _ |>.mp h
      exact ⟨[], l, rest, rfl, by intro y hy; simp at hy, hlf, by rw [← h1]; rfl⟩

/-- C10 (implicit): multi-level limiter admission is not atomic across its
sub-limiters: a call that returns false because some sub-limiter rejects has
already run (and consumed from) every earlier sub-limiter, which keeps its
consumed state; concretely, in a two-level limiter of token buckets where
the first bucket admits and the second rejects, the rejected call has
already taken n tokens from the first bucket and they are not returned, and
iterating k such rejected calls drains k*n tokens from the first bucket even
though no request was ever admitted. -/
theorem multi_level_limiter_drains (a b : TokenBucketLimiter) (now : ℚ) (n : ℤ)
    (hn : 0 < n) (ha : a.lastRefill = now) (hb : b.lastRefill = now)
    (hbn : b.tokens < n) :
    (∀ (α : Type) (f : α → α × Bool) (ls ls' : List α),
      multiLevelAllowN f ls = (ls', false) →
      ∃ (pre : List α) (x : α) (suf : List α),
        ls = pre ++ x :: suf ∧ (∀ y ∈ pre, (f y).2 = true) ∧
        (f x).2 = false ∧
        ls' = pre.map (fun l => (f l).1) ++ (f x).1 :: suf) ∧
    (n ≤ a.tokens →
      multiLevelAllowN (fun l => tbAllowN l now n) [a, b]
        = ([{ a with tokens := a.tokens - n }, b], false)) ∧
    (∀ k : ℕ, (k : ℤ) * n ≤ a.tokens →
      multiRun (fun l => tbAllowN l now n) k [a, b]
        = ([{ a with tokens := a.tokens - (k : ℤ) * n }, b], List.replicate k false)) := by
  refine ⟨fun α f ls ls' h => multiLevelAllowN_false_split f ls ls' h,
    fun han => multiTB_two_reject a b now n ha hb han hbn, ?_⟩
  intro k
  induction k generalizing a with
  | zero =>
    intro _
    simp [multiRun]
  | succ k ih =>
    intro hk
    have hkn : (0 : ℤ) ≤ (k : ℤ) * n :=
      mul_nonneg (Int.natCast_nonneg k) (le_of_lt hn)
    have h1 : n ≤ a.tokens := by
      have : (k : ℤ) * n + n = ((k : ℤ) + 1) * n := by ring
      push_cast at hk
      omega
    have hstep := multiTB_two_reject a b now n ha hb h1 hbn
    have hrest := ih { a with tokens := a.tokens - n } ha
      (by push_cast at hk ⊢; nlinarith)
    have hunfold : multiRun (fun l => tbAllowN l now n) (k + 1) [a, b]
        = ((multiRun (fun l => tbAllowN l now n) k
              (multiLevelAllowN (fun l => tbAllowN l now n) [a, b]).1).1,
           (multiLevelAllowN (fun l => tbAllowN l now n) [a, b]).2
             :: (multiRun (fun l => tbAllowN l now n) k
                  (multiLevelAllowN (fun l => tbAllowN l now n) [a, b]).1).2) := by
      simp only [multiRun]
    rw [hunfold, hstep]
    simp only [hrest]
    have harith : a.tokens - n - (k : ℤ) * n = a.tokens - ((k : ℤ) + 1) * n := by ring
    rw [List.replicate_succ]
    push_cast
    rw [harith]

/-- Witness for C10: bucket a (5 tokens) before an empty bucket b; three
rejected calls with n = 1 drain three tokens from a. -/
theorem multi_level_limiter_drains_witness :
    multiRun (fun l => tbAllowN l (0 : ℚ) 1) 3
        [{ rate := 1, capacity := 5, tokens := 5, lastRefill := 0 },
         { rate := 1, capacity := 4, tokens := 0, lastRefill := 0 }]
      = ([{ rate := 1, capacity := 5, tokens := 5 - (3 : ℤ) * 1, lastRefill := 0 },
          { rate := 1, capacity := 4, tokens := 0, lastRefill := 0 }],
         List.replicate 3 false) :=
  (multi_level_limiter_drains
      { rate := 1, capacity := 5, tokens := 5, lastRefill := 0 }
      { rate := 1, capacity := 4, tokens := 0, lastRefill := 0 }
      0 1 one_pos rfl rfl (by norm_num)).2.2 3 (by norm_num)

/-! ## Circuit breaker

From the flowcontrol circuit-breaker file.  Wall-clock instants are ℤ
(seconds); the Go zero time.Time held in expiry is modelled as none (it
precedes every instant modelled here).  uint32 counters are ℕ (no scenario
approaches 2^32).  The onStateChange observer and logging do not affect the
state machine and are omitted.
-/

inductive CBState where
  | StateClosed
  | StateOpen
  | StateHalfOpen
  deriving DecidableEq, Repr

inductive CBError where
  | circuitBreakerOpen
  | tooManyRequests
  deriving DecidableEq, Repr

/-- Rolling counters of one generation. -/
structure Counts where
  requests : ℕ
  totalSuccesses : ℕ
  totalFailures : ℕ
  consecutiveSuccesses : ℕ
  consecutiveFailures : ℕ
  deriving DecidableEq, Repr

def Counts.onRequest (c : Counts) : Counts :=
  { c with requests := c.requests + 1 }

def Counts.onSuccess (c : Counts) : Counts :=
  { c with totalSuccesses := c.totalSuccesses + 1,
           consecutiveSuccesses := c.consecutiveSuccesses + 1,
           consecutiveFailures := 0 }

def Counts.onFailure (c : Counts) : Counts :=
  { c with totalFailures := c.totalFailures + 1,
           consecutiveFailures := c.consecutiveFailures + 1,
           consecutiveSuccesses := 0 }

/-- Counts.clear resets every counter to zero. -/
def countsClear : Counts :=
  { requests := 0, totalSuccesses := 0, totalFailures := 0,
    consecutiveSuccesses := 0, consecutiveFailures := 0 }

/-- defaultReadyToTrip: at least 3 requests, at least one failure, and
failure ratio at least 0.6.  The float64 division and the 0.6 literal are
modelled as exact rationals (mkRat f r is the rational f/r); at the small
counts exercised here the float and rational comparisons agree. -/
def defaultReadyToTrip (c : Counts) : Bool :=
  decide (3 ≤ c.requests) && decide (0 < c.totalFailures) &&
    decide (mkRat 3 5 ≤ mkRat (c.totalFailures : ℤ) c.requests)

structure CircuitBreaker where
  maxRequests : ℕ
  interval : ℤ
  timeout : ℤ
  readyToTrip : Counts → Bool
  state : CBState
  generation : ℕ
  counts : Counts
  expiry : Option ℤ

/-- Go time.Time.Before (strict); the zero time (none) precedes every
modelled instant. -/
def timeBefore : Option ℤ → ℤ → Bool
  | some e, now => decide (e < now)
  | none, _ => true

/-- toNewGeneration: bump the generation, clear the counts, and set the
expiry from the current state (CLOSED: now + interval, or zero when the
interval is 0; OPEN: now + timeout; HALF_OPEN: zero). -/
def toNewGeneration (cb : CircuitBreaker) (now : ℤ) : CircuitBreaker :=
  { cb with generation := cb.generation + 1,
            counts := countsClear,
            expiry :=
              match cb.state with
              | CBState.StateClosed =>
                  if cb.interval = 0 then none else some (now + cb.interval)
              | CBState.StateOpen => some (now + cb.timeout)
              | CBState.StateHalfOpen => none }

/-- setState: no-op when the state is unchanged, otherwise switch state and
start a new generation. -/
def setState (cb : CircuitBreaker) (s : CBState) (now : ℤ) : CircuitBreaker :=
  if cb.state = s then cb
  else toNewGeneration { cb with state := s } now

/-- currentState: in CLOSED a non-zero elapsed expiry rolls the generation;
in OPEN an elapsed expiry moves to HALF_OPEN.  Returns the updated breaker
together with its state and generation. -/
def currentState (cb : CircuitBreaker) (now : ℤ) : CircuitBreaker × CBState × ℕ :=
  let cb1 :=
    match cb.state with
    | CBState.StateClosed =>
        if cb.expiry.isSome && timeBefore cb.expiry now then toNewGeneration cb now
        else cb
    | CBState.StateOpen =>
        if timeBefore cb.expiry now then setState cb CBState.StateHalfOpen now
        else cb
    | CBState.StateHalfOpen => cb
  (cb1, cb1.state, cb1.generation)

/-- beforeRequest: OPEN rejects with the circuit-open error; HALF_OPEN with
maxRequests in-flight trial requests rejects with too-many-requests;
otherwise the request counter is bumped and the generation returned. -/
def beforeRequest (cb : CircuitBreaker) (now : ℤ) :
    CircuitBreaker × Except CBError ℕ :=
  let c := currentState cb now
  if c.2.1 = CBState.StateOpen then
    (c.1, Except.error CBError.circuitBreakerOpen)
  else if c.2.1 = CBState.StateHalfOpen ∧ c.1.maxRequests ≤ c.1.counts.requests then
    (c.1, Except.error CBError.tooManyRequests)
  else
    ({ c.1 with counts := c.1.counts.onRequest }, Except.ok c.2.2)

/-- onSuccess: bump the success counters; a success observed in HALF_OPEN
closes the breaker. -/
def cbOnSuccess (cb : CircuitBreaker) (st : CBState) (now : ℤ) : CircuitBreaker :=
  let cb1 := { cb with counts := cb.counts.onSuccess }
  if st = CBState.StateHalfOpen then setState cb1 CBState.StateClosed now else cb1

/-- onFailure: bump the failure counters; move to OPEN exactly when
readyToTrip fires on the updated counts (note: no special case for
HALF_OPEN). -/
def cbOnFailure (cb : CircuitBreaker) (_st : CBState) (now : ℤ) : CircuitBreaker :=
  let cb1 := { cb with counts := cb.counts.onFailure }
  if cb.readyToTrip cb1.counts then setState cb1 CBState.StateOpen now else cb1

/-- afterRequest: drop the report if the generation changed, otherwise feed
the outcome to onSuccess/onFailure.  The st argument threading mirrors the
Go code (state recomputed at report time). -/
def afterRequest (cb : CircuitBreaker) (before : ℕ) (success : Bool) (now : ℤ) :
    CircuitBreaker :=
  let c := currentState cb now
  if c.2.2 ≠ before then c.1
  else if success then cbOnSuccess c.1 c.2.1 now else cbOnFailure c.1 c.2.1 now

/-- Execute, with the wrapped request's outcome given as the success flag and
the request completing at the same instant it was admitted. -/
def executeStep (cb : CircuitBreaker) (now : ℤ) (success : Bool) :
    CircuitBreaker × Except CBError Bool :=
  match beforeRequest cb now with
  | (cb1, Except.error e) => (cb1, Except.error e)
  | (cb1, Except.ok gen) => (afterRequest cb1 gen success now, Except.ok success)

/-- NewCircuitBreaker with the zero-value substitutions of the constructor
(maxRequests 0 becomes 1; interval and timeout default to 60 when
nonpositive) and the default trip predicate, created at the given instant. -/
def newCircuitBreaker (maxRequests : ℕ) (interval timeout : ℤ) (now : ℤ) :
    CircuitBreaker :=
  toNewGeneration
    { maxRequests := if maxRequests = 0 then 1 else maxRequests,
      interval := if interval ≤ 0 then 60 else interval,
      timeout := if timeout ≤ 0 then 60 else timeout,
      readyToTrip := defaultReadyToTrip,
      state := CBState.StateClosed, generation := 0,
      counts := countsClear, expiry := none } now

/-- Run a sequence of Execute calls, all at one instant, with the given
request outcomes. -/
def cbRun (now : ℤ) : CircuitBreaker → List Bool → CircuitBreaker
  | cb, [] => cb
  | cb, r :: rs => cbRun now (executeStep cb now r).1 rs

/-- A breaker with the all-defaults configuration, created at t = 0. -/
def cbDemo : CircuitBreaker := newCircuitBreaker 0 0 0 0

/-- cbDemo after 2 successes and 3 failures, all at t = 0. -/
def cbTripped : CircuitBreaker := cbRun 0 cbDemo [true, true, false, false, false]

/-- C6, evaluated at the failing scenario.  With the default configuration
(trip at ≥ 3 requests, ≥ 1 failure, failure ratio ≥ 0.6; maxRequests 1,
timeout 60) and 2 successes then 3 failures recorded at t = 0 in one
generation, the breaker is OPEN; at t = 30 and t = 60 (timeout not yet
elapsed) requests are rejected immediately with the circuit-open error; at
t = 61 a trial request is admitted in HALF_OPEN and a trial success returns
the breaker to CLOSED.  But a trial FAILURE leaves the breaker in HALF_OPEN
instead of reopening it — onFailure consults only readyToTrip, and the
default predicate requires ≥ 3 requests — after which every further request
is rejected with too-many-requests: the breaker is stuck in HALF_OPEN.  The
claim (and the circuit-breaker design the code otherwise follows) requires
the trial failure to reopen the breaker. -/
theorem circuit_breaker_transitions :
    cbTripped.state = CBState.StateOpen ∧
    (beforeRequest cbTripped 30).2 = Except.error CBError.circuitBreakerOpen ∧
    (beforeRequest cbTripped 60).2 = Except.error CBError.circuitBreakerOpen ∧
    (executeStep cbTripped 61 true).1.state = CBState.StateClosed ∧
    (executeStep cbTripped 61 true).2 = Except.ok true ∧
    (executeStep cbTripped 61 false).1.state = CBState.StateHalfOpen ∧
    (executeStep cbTripped 61 false).1.state ≠ CBState.StateOpen ∧
    (executeStep (executeStep cbTripped 61 false).1 70 true).2
      = Except.error CBError.tooManyRequests :=
  ⟨by decide, by rfl, by rfl, by decide, by rfl, by decide, by decide, by rfl⟩

/-! ## Order Compensator: idempotent durable order creation

From the order-service OrderService (CreateOrder, checkIdempotency,
HandleSeckillOrder).  The durable store is modelled as explicit row lists;
the transaction is modelled by returning the pre-transaction state on any
error (rollback discards all inserts).  Insert failures of the three INSERTs
are injected through explicit fault flags.  float64 prices are ℚ.
-/

structure SeckillOrderMessage where
  orderId : String
  productId : ℤ
  userId : ℤ
  quantity : ℤ
  price : ℚ
  traceId : String
  deriving DecidableEq, Repr

structure Order where
  orderId : String
  userId : ℤ
  productId : ℤ
  productName : String
  quantity : ℤ
  price : ℚ
  totalAmount : ℚ
  status : String
  orderType : String
  traceId : String
  deriving DecidableEq, Repr

structure OrderItem where
  orderId : String
  productId : ℤ
  productName : String
  quantity : ℤ
  price : ℚ
  totalAmount : ℚ
  deriving DecidableEq, Repr

structure OrderIdempotency where
  userId : ℤ
  productId : ℤ
  orderId : String
  traceId : String
  status : String
  deriving DecidableEq, Repr

/-- Order Failure Record persisted by recordOrderFailure (message payload,
error text and retry schedule fields beyond those the claim needs are
omitted or simplified to the error message). -/
structure OrderFailure where
  orderId : String
  userId : ℤ
  productId : ℤ
  errorMsg : String
  retryCount : ℕ
  status : String
  deriving DecidableEq, Repr

structure OrderDB where
  orders : List Order
  items : List OrderItem
  idem : List OrderIdempotency
  failures : List OrderFailure
  deriving DecidableEq, Repr

structure CreateOrderRequest where
  orderId : String
  userId : ℤ
  productId : ℤ
  productName : String
  quantity : ℤ
  price : ℚ
  orderType : String
  traceId : String
  deriving DecidableEq, Repr

inductive CreateOrderError where
  | invalidRequest
  | duplicateOrder
  | insertFailed
  deriving DecidableEq, Repr

/-- Injected outcomes of the three INSERTs inside the transaction: a true
flag makes that insert return a database error. -/
structure InsertFaults where
  failOrder : Bool
  failItem : Bool
  failIdem : Bool
  deriving DecidableEq, Repr

/-- All inserts succeed. -/
def noFaults : InsertFaults := ⟨false, false, false⟩

/-- validateOrderRequest: order id and order type nonempty, positive user,
product and quantity, nonnegative price. -/
def validateOrderRequest (r : CreateOrderRequest) : Bool :=
  decide (r.orderId ≠ "") && decide (0 < r.userId) && decide (0 < r.productId) &&
    decide (0 < r.quantity) && decide (0 ≤ r.price) && decide (r.orderType ≠ "")

/-- checkIdempotency: look for an existing idempotency row with this
(user, product) pair. -/
def checkIdempotency (db : OrderDB) (r : CreateOrderRequest) : Bool :=
  db.idem.any fun x => decide (x.userId = r.userId) && decide (x.productId = r.productId)

/-- The order row built inside CreateOrder (status pending; expiry time
omitted). -/
def orderOf (r : CreateOrderRequest) : Order :=
  { orderId := r.orderId, userId := r.userId, productId := r.productId,
    productName := r.productName, quantity := r.quantity, price := r.price,
    totalAmount := r.price * (r.quantity : ℚ), status := "pending",
    orderType := r.orderType, traceId := r.traceId }

/-- The order line item built inside CreateOrder. -/
def itemOf (r : CreateOrderRequest) : OrderItem :=
  { orderId := r.orderId, productId := r.productId, productName := r.productName,
    quantity := r.quantity, price := r.price,
    totalAmount := r.price * (r.quantity : ℚ) }

/-- The idempotency row built inside CreateOrder. -/
def idemOf (r : CreateOrderRequest) : OrderIdempotency :=
  { userId := r.userId, productId := r.productId, orderId := r.orderId,
    traceId := r.traceId, status := "pending" }

/-- CreateOrder: validate, then inside one transaction check the idempotency
table keyed by (user, product) — a hit aborts with duplicate-order — and
insert the order, its line item and the idempotency row together; any insert
failure rolls the whole transaction back (the returned state is the
pre-transaction state).  Statistics, caching and logging are omitted. -/
def createOrder (db : OrderDB) (r : CreateOrderRequest) (f : InsertFaults) :
    OrderDB × Except CreateOrderError Order :=
  if validateOrderRequest r = false then
    (db, Except.error CreateOrderError.invalidRequest)
  else if checkIdempotency db r then
    (db, Except.error CreateOrderError.duplicateOrder)
  else if f.failOrder then (db, Except.error CreateOrderError.insertFailed)
  else if f.failItem then (db, Except.error CreateOrderError.insertFailed)
  else if f.failIdem then (db, Except.error CreateOrderError.insertFailed)
  else
    ({ db with orders := db.orders ++ [orderOf r],
               items := db.items ++ [itemOf r],
               idem := db.idem ++ [idemOf r] },
      Except.ok (orderOf r))

/-- The CreateOrderRequest HandleSeckillOrder builds from a message
(product name synthesised, order type seckill). -/
def buildCreateRequest (m : SeckillOrderMessage) : CreateOrderRequest :=
  { orderId := m.orderId, userId := m.userId, productId := m.productId,
    productName := "Product-" ++ toString m.productId,
    quantity := m.quantity, price := m.price,
    orderType := "seckill", traceId := m.traceId }

/-- HandleSeckillOrder: call CreateOrder; a duplicate order is treated as
success (nil return, no failure record); any other error appends an Order
Failure Record with retry count 0 and is propagated as an error. -/
def handleSeckillOrder (db : OrderDB) (m : SeckillOrderMessage) (f : InsertFaults) :
    OrderDB × Except String Unit :=
  match createOrder db (buildCreateRequest m) f with
  | (db1, Except.ok _) => (db1, Except.ok ())
  | (db1, Except.error CreateOrderError.duplicateOrder) => (db1, Except.ok ())
  | (db1, Except.error _) =>
    ({ db1 with failures := db1.failures ++
        [{ orderId := m.orderId, userId := m.userId, productId := m.productId,
           errorMsg := "failed to create order", retryCount := 0,
           status := "pending" }] },
      Except.error "failed to create order")

/-- Number of durable orders for a (user, product) pair. -/
def countOrdersFor (db : OrderDB) (u p : ℤ) : ℕ :=
  db.orders.countP fun o => decide (o.userId = u) && decide (o.productId = p)

/-- Number of order line items for an order id. -/
def countItemsFor (db : OrderDB) (oid : String) : ℕ :=
  db.items.countP fun i => decide (i.orderId = oid)

/-- Number of idempotency rows for a (user, product) pair. -/
def countIdemFor (db : OrderDB) (u p : ℤ) : ℕ :=
  db.idem.countP fun x => decide (x.userId = u) && decide (x.productId = p)

/-- Process the same order-creation message n times. -/
def replayOrder (m : SeckillOrderMessage) (f : InsertFaults) : ℕ → OrderDB → OrderDB
  | 0, db => db
  | n + 1, db => replayOrder m f n (handleSeckillOrder db m f).1

theorem checkIdempotency_eq (db : OrderDB) (r : CreateOrderRequest) :
    checkIdempotency db r = true ↔ 0 < countIdemFor db r.userId r.productId := by
  simp [checkIdempotency, countIdemFor, List.any_eq_true, List.countP_pos_iff]

/-- One fresh, fault-free processing inserts exactly the order row, the line
item and the idempotency row, and succeeds. -/
theorem handleSeckillOrder_fresh (m : SeckillOrderMessage) (db : OrderDB)
    (hv : validateOrderRequest (buildCreateRequest m) = true)
    (hno : checkIdempotency db (buildCreateRequest m) = false) :
    handleSeckillOrder db m noFaults =
      ({ db with orders := db.orders ++ [orderOf (buildCreateRequest m)],
                 items := db.items ++ [itemOf (buildCreateRequest m)],
                 idem := db.idem ++ [idemOf (buildCreateRequest m)] },
        Except.ok ()) := by
  simp [handleSeckillOrder, createOrder, hv, hno, noFaults]

/-- A processing that hits the idempotency table is treated as success by the
handler: it returns nil, writes no rows and records no failure record. -/
theorem handleSeckillOrder_hit (m : SeckillOrderMessage) (db : OrderDB)
    (f : InsertFaults)
    (hv : validateOrderRequest (buildCreateRequest m) = true)
    (hhit : checkIdempotency db (buildCreateRequest m) = true) :
    handleSeckillOrder db m f = (db, Except.ok ()) := by
  simp [handleSeckillOrder, createOrder, hv, hhit]

/-- Replaying from a fixed point of the handler stays fixed. -/
theorem replayOrder_fixed (m : SeckillOrderMessage) (f : InsertFaults) (n : ℕ) :
    ∀ db : OrderDB, handleSeckillOrder db m f = (db, Except.ok ()) →
      replayOrder m f n db = db := by
  induction n with
  | zero => intro db _; rfl
  | succ n ih =>
    intro db h
    have hr : replayOrder m f (n + 1) db
        = replayOrder m f n (handleSeckillOrder db m f).1 := rfl
    rw [hr, h]
    exact ih db h

/-- Inserting the three rows of one creation bumps each of the three counts
for the request's own keys by exactly one. -/
theorem counts_insert (db : OrderDB) (r : CreateOrderRequest) :
    countOrdersFor { db with orders := db.orders ++ [orderOf r],
                             items := db.items ++ [itemOf r],
                             idem := db.idem ++ [idemOf r] } r.userId r.productId
        = countOrdersFor db r.userId r.productId + 1 ∧
    countItemsFor { db with orders := db.orders ++ [orderOf r],
                            items := db.items ++ [itemOf r],
                            idem := db.idem ++ [idemOf r] } r.orderId
        = countItemsFor db r.orderId + 1 ∧
    countIdemFor { db with orders := db.orders ++ [orderOf r],
                           items := db.items ++ [itemOf r],
                           idem := db.idem ++ [idemOf r] } r.userId r.productId
        = countIdemFor db r.userId r.productId + 1 := by
  refine ⟨?_, ?_, ?_⟩ <;>
    simp [countOrdersFor, countItemsFor, countIdemFor, orderOf, itemOf, idemOf,
      List.countP_append, List.countP_cons, List.countP_nil]

/-- C7: idempotent durable order creation: replaying the same (valid)
order-creation message any number of times, starting from a state with no
order, item or idempotency row for its keys, leaves exactly one durable
order, one line item and one idempotency row for the (user, product) pair
and writes no failure record; a processing whose idempotency check hits is
treated by the handler as success (nil return, no failure record, no state
change); and for every request and any combination of insert failures the
creation transaction either leaves the store unchanged or inserts the order,
the item and the idempotency row together — never a proper subset. -/
theorem order_creation_idempotent (m : SeckillOrderMessage)
    (hv : validateOrderRequest (buildCreateRequest m) = true)
    (db0 : OrderDB)
    (h0 : countIdemFor db0 m.userId m.productId = 0)
    (ho : countOrdersFor db0 m.userId m.productId = 0)
    (hi : countItemsFor db0 m.orderId = 0) :
    (∀ n : ℕ,
      countOrdersFor (replayOrder m noFaults (n + 1) db0) m.userId m.productId = 1 ∧
      countItemsFor (replayOrder m noFaults (n + 1) db0) m.orderId = 1 ∧
      countIdemFor (replayOrder m noFaults (n + 1) db0) m.userId m.productId = 1 ∧
      (replayOrder m noFaults (n + 1) db0).failures = db0.failures) ∧
    (∀ (db : OrderDB) (f : InsertFaults),
      checkIdempotency db (buildCreateRequest m) = true →
      handleSeckillOrder db m f = (db, Except.ok ())) ∧
    (∀ (db : OrderDB) (r : CreateOrderRequest) (f : InsertFaults),
      (createOrder db r f).1 = db ∨
      (createOrder db r f).1 =
        { db with orders := db.orders ++ [orderOf r],
                  items := db.items ++ [itemOf r],
                  idem := db.idem ++ [idemOf r] }) := by
  have hbu : (buildCreateRequest m).userId = m.userId := rfl
  have hbp : (buildCreateRequest m).productId = m.productId := rfl
  have hbo : (buildCreateRequest m).orderId = m.orderId := rfl
  refine ⟨?_, fun db f hhit => handleSeckillOrder_hit m db f hv hhit, ?_⟩
  · intro n
    have hno : checkIdempotency db0 (buildCreateRequest m) = false := by
      rw [Bool.eq_false_iff]
      intro hc
      have hpos := (checkIdempotency_eq db0 (buildCreateRequest m)).mp hc
      rw [hbu, hbp, h0] at hpos
      exact lt_irrefl 0 hpos
    have hstep := handleSeckillOrder_fresh m db0 hv hno
    obtain ⟨c1, c2, c3⟩ := counts_insert db0 (buildCreateRequest m)
    simp only [hbu, hbp, hbo] at c1 c2 c3
    have hidem1 : countIdemFor (handleSeckillOrder db0 m noFaults).1
        m.userId m.productId = 1 := by
      rw [hstep]
      rw [c3, h0]
    have hhit1 : checkIdempotency (handleSeckillOrder db0 m noFaults).1
        (buildCreateRequest m) = true := by
      rw [checkIdempotency_eq, hbu, hbp, hidem1]
      norm_num
    have hfix := handleSeckillOrder_hit m (handleSeckillOrder db0 m noFaults).1
      noFaults hv hhit1
    have hrepl : replayOrder m noFaults (n + 1) db0
        = (handleSeckillOrder db0 m noFaults).1 := by
      have hr : replayOrder m noFaults (n + 1) db0
          = replayOrder m noFaults n (handleSeckillOrder db0 m noFaults).1 := rfl
      rw [hr]
      exact replayOrder_fixed m noFaults n _ hfix
    rw [hrepl, hstep]
    refine ⟨?_, ?_, ?_, rfl⟩
    · rw [c1, ho]
    · rw [c2, hi]
    · rw [c3, h0]
  · intro db r f
    by_cases h1 : validateOrderRequest r = false
    · left; simp [createOrder, h1]
    · by_cases h2 : checkIdempotency db r = true
      · left; simp [createOrder, h1, h2]
      · have h2f : checkIdempotency db r = false := Bool.eq_false_iff.mpr h2
        by_cases h3 : f.failOrder = true
        · left; simp [createOrder, h1, h2f, h3]
        · have h3f : f.failOrder = false := Bool.eq_false_iff.mpr h3
          by_cases h4 : f.failItem = true
          · left; simp [createOrder, h1, h2f, h3f, h4]
          · have h4f : f.failItem = false := Bool.eq_false_iff.mpr h4
            by_cases h5 : f.failIdem = true
            · left; simp [createOrder, h1, h2f, h3f, h4f, h5]
            · have h5f : f.failIdem = false := Bool.eq_false_iff.mpr h5
              right; simp [createOrder, h1, h2f, h3f, h4f, h5f]

/-- Witness for C7: replaying one concrete message twice against an empty
store leaves exactly one order, one item and one idempotency row and no
failure record. -/
theorem order_creation_idempotent_witness :
    countOrdersFor (replayOrder
        { orderId := "o1", productId := 7, userId := 5, quantity := 1,
          price := 9, traceId := "t" } noFaults (1 + 1)
        { orders := [], items := [], idem := [], failures := [] }) 5 7 = 1 ∧
    countItemsFor (replayOrder
        { orderId := "o1", productId := 7, userId := 5, quantity := 1,
          price := 9, traceId := "t" } noFaults (1 + 1)
        { orders := [], items := [], idem := [], failures := [] }) "o1" = 1 ∧
    countIdemFor (replayOrder
        { orderId := "o1", productId := 7, userId := 5, quantity := 1,
          price := 9, traceId := "t" } noFaults (1 + 1)
        { orders := [], items := [], idem := [], failures := [] }) 5 7 = 1 ∧
    (replayOrder
        { orderId := "o1", productId := 7, userId := 5, quantity := 1,
          price := 9, traceId := "t" } noFaults (1 + 1)
        { orders := [], items := [], idem := [], failures := [] }).failures
      = ({ orders := [], items := [], idem := [], failures := [] } : OrderDB).failures :=
  (order_creation_idempotent
    { orderId := "o1", productId := 7, userId := 5, quantity := 1,
      price := 9, traceId := "t" }
    (by norm_num [validateOrderRequest, buildCreateRequest]; exact ⟨by decide, by decide⟩)
    { orders := [], items := [], idem := [], failures := [] }
    rfl rfl rfl).1 1

/-! ## Inventory service: the SyncStock operation

From the inventory-service InventoryService.SyncStock.  The durable store is
the single product row (Option: the row may not exist yet) plus the
append-only operation log; the transaction is modelled by returning the
pre-transaction state whenever it rolls back.  The optimistic-concurrency
UPDATE compares the row version at update time (liveVersion) with the
snapshot read at the start of the transaction; a concurrent writer makes
them differ, RowsAffected is 0 and the transaction is rolled back.
-/

structure Inventory where
  productId : ℤ
  productName : String
  stock : ℤ
  reserved : ℤ
  available : ℤ
  status : String
  minStock : ℤ
  maxStock : ℤ
  version : ℤ
  deriving DecidableEq, Repr

structure InventoryLog where
  productId : ℤ
  opType : String
  delta : ℤ
  beforeStock : ℤ
  afterStock : ℤ
  orderId : String
  reason : String
  operatorName : String
  traceId : String
  deriving DecidableEq, Repr

structure SyncStockRequest where
  productId : ℤ
  delta : ℤ
  orderId : String
  reason : String
  traceId : String
  deriving DecidableEq, Repr

structure SyncStockResponse where
  productId : ℤ
  beforeStock : ℤ
  afterStock : ℤ
  delta : ℤ
  success : Bool
  message : String
  deriving DecidableEq, Repr

/-- Durable inventory state: the product row (if created) and the
operation log. -/
structure SyncState where
  inv : Option Inventory
  logs : List InventoryLog
  deriving DecidableEq, Repr

/-- The initial row created when the product does not exist yet
(stock = configured default, reserved 0, version 0). -/
def initialInventory (defaultStock lowThreshold : ℤ) (productId : ℤ) : Inventory :=
  { productId := productId, productName := "Product-" ++ toString productId,
    stock := defaultStock, reserved := 0, available := defaultStock,
    status := "active", minStock := lowThreshold, maxStock := defaultStock * 10,
    version := 0 }

/-- The operation-log row written by a successful sync. -/
def logOf (req : SyncStockRequest) (beforeStock afterStock : ℤ) : InventoryLog :=
  { productId := req.productId, opType := "sync", delta := req.delta,
    beforeStock := beforeStock, afterStock := afterStock,
    orderId := req.orderId, reason := req.reason, operatorName := "system",
    traceId := req.traceId }

/-- The response of the insufficient-stock outcome (delta reported as 0,
afterStock = beforeStock). -/
def respInsufficient (req : SyncStockRequest) (beforeStock : ℤ) : SyncStockResponse :=
  { productId := req.productId, beforeStock := beforeStock,
    afterStock := beforeStock, delta := 0, success := false,
    message := "insufficient stock" }

/-- The response of a successful sync. -/
def respOk (req : SyncStockRequest) (beforeStock afterStock : ℤ) : SyncStockResponse :=
  { productId := req.productId, beforeStock := beforeStock,
    afterStock := afterStock, delta := req.delta, success := true,
    message := "" }

/-- Core of SyncStock after the row has been read (or created): check the
negative-delta guard, run the optimistic UPDATE (Where version = snapshot
version), append the log row, commit. -/
def syncStockGo (st : SyncState) (inv : Inventory) (liveVersion : ℤ)
    (req : SyncStockRequest) : SyncState × Except String SyncStockResponse :=
  if req.delta < 0 ∧ inv.stock + req.delta < 0 then
    (st, Except.ok (respInsufficient req inv.stock))
  else if liveVersion ≠ inv.version then
    (st, Except.error "inventory update conflict, retry")
  else
    ({ inv := some ({ inv with
         stock := inv.stock + req.delta,
         available := inv.stock + req.delta - inv.reserved,
         version := inv.version + 1 }),
       logs := st.logs ++ [logOf req inv.stock (inv.stock + req.delta)] },
      Except.ok (respOk req inv.stock (inv.stock + req.delta)))

/-- SyncStock: validate the product id, read the row (creating the initial
row inside the transaction when absent — a freshly created row cannot have
been moved by a concurrent writer), then deduct/restock with the optimistic
version check and the operation-log append, all in one transaction.
Statistics, caching and the stock alert are omitted. -/
def syncStock (defaultStock lowThreshold : ℤ) (st : SyncState) (liveVersion : ℤ)
    (req : SyncStockRequest) : SyncState × Except String SyncStockResponse :=
  if req.productId ≤ 0 then (st, Except.error "product id must be positive")
  else
    match st.inv with
    | none =>
      let inv0 := initialInventory defaultStock lowThreshold req.productId
      syncStockGo st inv0 inv0.version req
    | some inv => syncStockGo st inv liveVersion req

/-- C8: Inventory Sync atomicity and versioning: when delta is negative and
beforeStock + delta < 0 the call returns success = false with
afterStock = beforeStock and leaves the durable state unchanged; a
successful call sets stock to beforeStock + delta, increments the row
version by exactly one and appends exactly one operation-log row in the same
transaction; and a call whose optimistic version check fails (the live
version moved since the snapshot read) is rejected with an error and rolled
back, leaving stock, version and log unchanged. -/
theorem inventory_sync_stock_spec (ds lt : ℤ) (st : SyncState) (inv : Inventory)
    (req : SyncStockRequest) (hinv : st.inv = some inv) (hp : 0 < req.productId) :
    (req.delta < 0 → inv.stock + req.delta < 0 →
      syncStock ds lt st inv.version req
        = (st, Except.ok (respInsufficient req inv.stock))) ∧
    (¬ (req.delta < 0 ∧ inv.stock + req.delta < 0) →
      syncStock ds lt st inv.version req
        = ({ inv := some ({ inv with
               stock := inv.stock + req.delta,
               available := inv.stock + req.delta - inv.reserved,
               version := inv.version + 1 }),
             logs := st.logs ++ [logOf req inv.stock (inv.stock + req.delta)] },
            Except.ok (respOk req inv.stock (inv.stock + req.delta)))) ∧
    (∀ liveVersion : ℤ, liveVersion ≠ inv.version →
      ¬ (req.delta < 0 ∧ inv.stock + req.delta < 0) →
      syncStock ds lt st liveVersion req
        = (st, Except.error "inventory update conflict, retry")) := by
  have hp' : ¬ req.productId ≤ 0 := not_le.mpr hp
  refine ⟨?_, ?_, ?_⟩
  · intro h1 h2
    simp [syncStock, syncStockGo, hp', hinv, h1, h2]
  · intro h
    simp [syncStock, syncStockGo, hp', hinv, h]
  · intro liveVersion hne h
    simp [syncStock, syncStockGo, hp', hinv, h, hne]

/-- Witness for C8: a row with stock 10 and version 3; a sale of 4 succeeds,
setting stock 6, version 4 and appending one log row. -/
theorem inventory_sync_stock_spec_witness :
    syncStock 100 1
        { inv := some { productId := 7, productName := "p", stock := 10,
                        reserved := 0, available := 10, status := "active",
                        minStock := 1, maxStock := 100, version := 3 },
          logs := [] } 3
        { productId := 7, delta := -4, orderId := "o1", reason := "sale",
          traceId := "t" }
      = ({ inv := some { productId := 7, productName := "p", stock := 10 + (-4),
                         reserved := 0, available := 10 + (-4) - 0,
                         status := "active", minStock := 1, maxStock := 100,
                         version := 3 + 1 },
           logs := [] ++ [logOf
             { productId := 7, delta := -4, orderId := "o1", reason := "sale",
               traceId := "t" } 10 (10 + (-4))] },
          Except.ok (respOk
            { productId := 7, delta := -4, orderId := "o1", reason := "sale",
              traceId := "t" } 10 (10 + (-4)))) :=
  (inventory_sync_stock_spec 100 1
    { inv := some { productId := 7, productName := "p", stock := 10,
                    reserved := 0, available := 10, status := "active",
                    minStock := 1, maxStock := 100, version := 3 },
      logs := [] }
    { productId := 7, productName := "p", stock := 10, reserved := 0,
      available := 10, status := "active", minStock := 1, maxStock := 100,
      version := 3 }
    { productId := 7, delta := -4, orderId := "o1", reason := "sale",
      traceId := "t" }
    rfl (by norm_num)).2.1 (by norm_num)

/-! ## Inventory Reconciler: health check and auto-fix

From InventoryService.CheckInventoryHealth / FixInventoryDiff and
HealthChecker.performHealthCheck / autoFixDifference.
-/

structure InventoryHealthResponse where
  productId : ℤ
  dbStock : ℤ
  redisStock : ℤ
  diffAmount : ℤ
  status : String
  deriving DecidableEq, Repr

/-- One product's entry of CheckInventoryHealth: diff = redisStock − dbStock,
status diff_found when |diff| exceeds the tolerance and normal otherwise
(a missing Redis key was already read as 0 by the caller). -/
def healthCheckOne (tolerance : ℤ) (productId dbStock redisStock : ℤ) :
    InventoryHealthResponse :=
  { productId := productId, dbStock := dbStock, redisStock := redisStock,
    diffAmount := redisStock - dbStock,
    status := if tolerance < |redisStock - dbStock| then "diff_found"
              else "normal" }

/-- Fix direction chosen by autoFixDifference: use_redis (trust the
fast path) unless the fast-path figure is lower than the durable one
(diff < 0), in which case use_db (trust the durable figure). -/
def chooseFixType (diff : ℤ) : String :=
  if diff < 0 then "use_db" else "use_redis"

/-- The auto-fix decision of performHealthCheck for one health entry: a fix
in chooseFixType's direction is attempted exactly when the entry is a
recorded diff, auto-fix is enabled and |diff| is at most the configured
maximum fix amount. -/
def autoFixDecision (autoFix : Bool) (maxFixAmount : ℤ)
    (r : InventoryHealthResponse) : Option String :=
  if r.status = "diff_found" ∧ autoFix = true ∧ |r.diffAmount| ≤ maxFixAmount then
    some (chooseFixType r.diffAmount)
  else none

/-- An Inventory Diff Record. -/
structure InventoryDiff where
  id : ℕ
  productId : ℤ
  dbStock : ℤ
  redisStock : ℤ
  diffAmount : ℤ
  status : String
  fixedBy : String
  remark : String
  deriving DecidableEq, Repr

/-- State acted on by FixInventoryDiff: the product's fast-path (Redis)
stock value, the durable inventory state, and the diff record being fixed. -/
structure FixState where
  redisStock : ℤ
  db : SyncState
  diffRec : InventoryDiff
  deriving DecidableEq, Repr

/-- Row version seen by a SyncStock call that runs without concurrent
interference (the live version equals the snapshot version). -/
def seqVersion (st : SyncState) : ℤ :=
  match st.inv with
  | some inv => inv.version
  | none => 0

/-- The SyncStock request issued by the use_redis fix: the recorded diff
applied as a durable adjustment. -/
def fixSyncRequest (d : InventoryDiff) : SyncStockRequest :=
  { productId := d.productId, delta := d.redisStock - d.dbStock,
    orderId := "", reason := "health check fix", traceId := "health-fix" }

/-- FixInventoryDiff: load the pending diff record (error when it is not
pending); use_db overwrites the fast-path stock with the durable figure;
use_redis applies the recorded diff as a durable adjustment through
SyncStock (run here without concurrent interference) and fails if the sync
fails; a completed fix marks the record fixed (fixed-by system). -/
def fixInventoryDiff (defaultStock lowThreshold : ℤ) (st : FixState)
    (fixType : String) : Except String FixState :=
  if st.diffRec.status ≠ "pending" then Except.error "diff record not found"
  else if fixType = "use_db" then
    Except.ok { st with
      redisStock := st.diffRec.dbStock,
      diffRec := { st.diffRec with
        status := "fixed", fixedBy := "system",
        remark := "fixed using " ++ fixType } }
  else if fixType = "use_redis" then
    match syncStock defaultStock lowThreshold st.db (seqVersion st.db)
        (fixSyncRequest st.diffRec) with
    | (_, Except.error e) => Except.error e
    | (db1, Except.ok _) =>
      Except.ok { st with
        db := db1,
        diffRec := { st.diffRec with
          status := "fixed", fixedBy := "system",
          remark := "fixed using " ++ fixType } }
  else Except.error "unsupported fix type"

/-- C9 counterexample: for a recorded diff whose durable figure (50) is
lower than the fast-path figure (100), the claim's heuristic prescribes
use_db (trust durable); the code chooses use_redis. -/
theorem reconciler_fix_direction_counterexample :
    autoFixDecision true 100
        { productId := 7, dbStock := 50, redisStock := 100, diffAmount := 50,
          status := "diff_found" }
      = some "use_redis" ∧ some ("use_redis" : String) ≠ some "use_db" := by
  constructor
  · decide
  · decide

/-- C9 (amended): the reconciler records diff = fastPath − durable with
status diff_found exactly when |diff| exceeds the tolerance; it applies an
automatic fix exactly when auto-fix is enabled and |diff| is at most the
configured maximum fix amount; the direction is use_db — trust the durable
figure and overwrite the fast-path value with it — exactly when the
FAST-PATH figure is lower (diff < 0), and otherwise use_redis — apply the
recorded diff as a durable-store adjustment via SyncStock; and every
completed fix sets the diff record's status to fixed. -/
theorem reconciler_auto_fix_policy (autoFix : Bool) (maxFixAmount : ℤ)
    (r : InventoryHealthResponse) :
    (autoFixDecision autoFix maxFixAmount r
        = if r.status = "diff_found" ∧ autoFix = true ∧ |r.diffAmount| ≤ maxFixAmount
          then some (chooseFixType r.diffAmount) else none) ∧
    (r.diffAmount < 0 → chooseFixType r.diffAmount = "use_db") ∧
    (0 ≤ r.diffAmount → chooseFixType r.diffAmount = "use_redis") ∧
    (∀ tol productId dbStock redisStock : ℤ,
      (healthCheckOne tol productId dbStock redisStock).diffAmount
          = redisStock - dbStock ∧
      ((healthCheckOne tol productId dbStock redisStock).status = "diff_found"
          ↔ tol < |redisStock - dbStock|)) ∧
    (∀ (ds lt : ℤ) (st : FixState), st.diffRec.status = "pending" →
      fixInventoryDiff ds lt st "use_db"
        = Except.ok { st with
            redisStock := st.diffRec.dbStock,
            diffRec := { st.diffRec with
              status := "fixed", fixedBy := "system",
              remark := "fixed using use_db" } }) ∧
    (∀ (ds lt : ℤ) (st : FixState) (db1 : SyncState) (resp : SyncStockResponse),
      st.diffRec.status = "pending" →
      syncStock ds lt st.db (seqVersion st.db) (fixSyncRequest st.diffRec)
          = (db1, Except.ok resp) →
      fixInventoryDiff ds lt st "use_redis"
        = Except.ok { st with
            db := db1,
            diffRec := { st.diffRec with
              status := "fixed", fixedBy := "system",
              remark := "fixed using use_redis" } }) ∧
    (∀ (ds lt : ℤ) (st st' : FixState) (fixType : String),
      fixInventoryDiff ds lt st fixType = Except.ok st' →
      st'.diffRec.status = "fixed") := by
  refine ⟨rfl, fun h => by simp [chooseFixType, h],
    fun h => by simp [chooseFixType, not_lt.mpr h], ?_, ?_, ?_, ?_⟩
  · intro tol productId dbStock redisStock
    refine ⟨rfl, ?_⟩
    by_cases h : tol < |redisStock - dbStock| <;> simp [healthCheckOne, h]
  · intro ds lt st hpend
    simp [fixInventoryDiff, hpend]
  · intro ds lt st db1 resp hpend hsync
    simp [fixInventoryDiff, hpend, hsync]
  · intro ds lt st st' fixType h
    by_cases h1 : st.diffRec.status ≠ "pending"
    · simp [fixInventoryDiff, h1] at h
    · by_cases h2 : fixType = "use_db"
      · simp [fixInventoryDiff, h1, h2] at h
        rw [← h]
      · by_cases h3 : fixType = "use_redis"
        · rcases hsync : syncStock ds lt st.db (seqVersion st.db)
            (fixSyncRequest st.diffRec) with ⟨db1, res⟩
          cases res with
          | error e => simp [fixInventoryDiff, h1, h2, h3, hsync] at h
          | ok resp =>
            simp [fixInventoryDiff, h1, h2, h3, hsync] at h
            rw [← h]
        · simp [fixInventoryDiff, h1, h2, h3] at h

/-- Witness for C9 (amended): a pending diff record with durable 50 and
fast path 100; the use_db fix overwrites the fast-path value with 50 and
marks the record fixed. -/
theorem reconciler_auto_fix_policy_witness :
    fixInventoryDiff 100 1
        { redisStock := 100, db := { inv := none, logs := [] },
          diffRec := { id := 1, productId := 7, dbStock := 50,
                       redisStock := 100, diffAmount := 50,
                       status := "pending", fixedBy := "", remark := "" } }
        "use_db"
      = Except.ok
          { redisStock := 50, db := { inv := none, logs := [] },
            diffRec := { id := 1, productId := 7, dbStock := 50,
                         redisStock := 100, diffAmount := 50,
                         status := "fixed", fixedBy := "system",
                         remark := "fixed using use_db" } } :=
  (reconciler_auto_fix_policy true 100
      { productId := 7, dbStock := 50, redisStock := 100, diffAmount := 50,
        status := "diff_found" }).2.2.2.2.1 100 1
    { redisStock := 100, db := { inv := none, logs := [] },
      diffRec := { id := 1, productId := 7, dbStock := 50,
                   redisStock := 100, diffAmount := 50,
                   status := "pending", fixedBy := "", remark := "" } }
    rfl

end MiniShop

